import Mathlib

/-!
Verification of the Eous relay system (unity.py, rpi.py, lyrics.py).

The development shallowly embeds the hub (unity.py: frame relay, command
station, audio hand-off, transcript board) and the agent (rpi.py: command
forwarding loop, lyric scheduler, audio processing pipeline) together with
the LRC lyric parser (lyrics.py).  Stateful endpoints become explicit
state-passing functions; wall-clock time is modelled with rationals; byte
payloads are lists of naturals.
-/

namespace Eous

/-! ### Python string primitives

Models of the CPython string operations the sources use: str.strip(),
str.split() (with and without maxsplit=1), str.upper()/lower() (ASCII
range, which is all the sources exercise), float() on plain decimal
literals, and the `in` substring test.
-/

/-- The characters Python treats as whitespace for strip()/split(). -/
def isPySpace (c : Char) : Bool :=
  c = ' ' || c = '\t' || c = '\n' || c = '\r' || c = '\x0b' || c = '\x0c'

/-- Python str.strip() on a character list: drop whitespace from both ends. -/
def pyStripList (l : List Char) : List Char :=
  ((l.dropWhile isPySpace).reverse.dropWhile isPySpace).reverse

/-- Python str.strip(). -/
def pyStrip (s : String) : String :=
  String.mk (pyStripList s.data)

/-- Python str.upper(), ASCII range. -/
def pyUpper (s : String) : String :=
  String.mk (s.data.map Char.toUpper)

/-- Python str.lower(), ASCII range. -/
def pyLower (s : String) : String :=
  String.mk (s.data.map Char.toLower)

/-- Python str.split() with no arguments: split on whitespace runs, never
producing empty words. -/
def pySplitWs (l : List Char) : List (List Char) :=
  let step := fun (acc : List (List Char) × List Char) (c : Char) =>
    if isPySpace c then
      match acc with
      | (ws, []) => (ws, ([] : List Char))
      | (ws, cur) => (ws ++ [cur.reverse], [])
    else (acc.1, c :: acc.2)
  match l.foldl step ([], []) with
  | (ws, []) => ws
  | (ws, cur) => ws ++ [cur.reverse]

/-- Python str.split(maxsplit=1): at most one split, on the first whitespace
run; leading whitespace is skipped, the remainder keeps its inner spacing. -/
def pySplitMax1 (l : List Char) : List (List Char) :=
  let l1 := l.dropWhile isPySpace
  if l1 = [] then []
  else
    let w := l1.takeWhile (fun c => !isPySpace c)
    let rest := (l1.dropWhile (fun c => !isPySpace c)).dropWhile isPySpace
    if rest = [] then [w] else [w, rest]

/-- Value of a decimal digit string (most significant first). -/
def digitsToNat (l : List Char) : Nat :=
  l.foldl (fun a c => a * 10 + (c.toNat - 48)) 0

/-- Python float() on an optionally signed plain decimal literal
(digits, optional decimal point).  Exponent, inf/nan and underscore forms
are not exercised by the sources and are not modelled. -/
def pyFloatCore (l : List Char) : Option ℚ :=
  let ip := l.takeWhile Char.isDigit
  match l.dropWhile Char.isDigit with
  | [] => if ip = [] then none else some ((digitsToNat ip : ℚ))
  | '.' :: fp =>
    if fp.all Char.isDigit ∧ (ip ≠ [] ∨ fp ≠ []) then
      some ((digitsToNat ip : ℚ) + (digitsToNat fp : ℚ) / 10 ^ fp.length)
    else none
  | _ => none

/-- Python float() on a token (no surrounding whitespace), returning none on
a parse failure exactly where float() raises ValueError. -/
def pyFloat? (s : String) : Option ℚ :=
  match s.data with
  | '+' :: l => pyFloatCore l
  | '-' :: l => (pyFloatCore l).map Neg.neg
  | l => pyFloatCore l

/-- Python substring containment (the `in` operator on str). -/
def strContains (s sub : String) : Bool :=
  decide (sub.data <:+: s.data)

end Eous

namespace Eous.Unity

/-- Outcome of a Flask request handler: ok (HTTP 200) or an error response
with a status code and reason string. -/
inductive ApiResult where
  | ok : ApiResult
  | error (code : Nat) (reason : String) : ApiResult
deriving DecidableEq, Repr

/-- The key-to-token mapping dictionary in set_current_command_from_key
(unity.py lines 58-65). -/
def commandMapping (k : String) : Option String :=
  if k = "W" then some ("FORWARD")
  else if k = "S" then some ("BACKWARD")
  else if k = "A" then some ("LEFT")
  else if k = "D" then some ("RIGHT")
  else if k = "X" then some ("Not Moving")
  else if k = "P" then some ("PHOTO")
  else none

/-- unity.py set_current_command_from_key (lines 50-73): uppercase the key,
look it up; on a miss return without mutating, on a hit store the token. -/
def set_current_command_from_key (cmd : String) (cur : String) : String :=
  match commandMapping (pyUpper cmd) with
  | none => cur
  | some t => t

/-- Initial value of the current_command global (unity.py line 32). -/
def initialCommand : String := "NOT_MOVING"

/-- POST /command (unity.py command_endpoint, lines 272-280): uppercase the
JSON "command" field, reject anything outside W/A/S/D/X with a 400, else
store via set_current_command_from_key. -/
def command_endpoint_post (cmdField : String) (cur : String) : ApiResult × String :=
  let cmd := pyUpper cmdField
  if cmd = "W" ∨ cmd = "A" ∨ cmd = "S" ∨ cmd = "D" ∨ cmd = "X" then
    (ApiResult.ok, set_current_command_from_key cmd cur)
  else (ApiResult.error 400 ("invalid command"), cur)

/-- GET /command (unity.py lines 282-285): current_command or the default
"NOT_MOVING" when the stored value is falsy (empty). -/
def command_endpoint_get (cur : String) : String :=
  if cur = "" then "NOT_MOVING" else cur

/-- Command states reachable through the only writer,
set_current_command_from_key (used by both POST /command and the keyboard
loop), starting from the initial value. -/
inductive ReachableCommand : String → Prop where
  | init : ReachableCommand initialCommand
  | step (cmd : String) {cur : String} (h : ReachableCommand cur) :
      ReachableCommand (set_current_command_from_key cmd cur)

/-- Whether a POST /command body value is accepted (unity.py line 276). -/
def acceptedOf (c : String) : Bool :=
  pyUpper c = "W" || pyUpper c = "A" || pyUpper c = "S" ||
    pyUpper c = "D" || pyUpper c = "X"

/-- Fold a sequence of POST /command calls over the stored command. -/
def postSeq (cmds : List String) (cur : String) : String :=
  cmds.foldl (fun s c => (command_endpoint_post c s).2) cur

/-! ### Audio hand-off (unity.py lines 288-328)

State: the pending_audio_ready boolean.  send_audio depends on whether the
backing ask.mp3 file exists; the GET /audio handler depends on whether the
file can be read after the flag is consumed. -/

/-- Response of GET /audio. -/
inductive AudioResp where
  | noContent : AudioResp
  | content : AudioResp
  | readError : AudioResp
deriving DecidableEq, Repr

/-- POST /send-audio (unity.py lines 288-304): 404 if the file is absent,
otherwise set the pending flag to true (an idempotent set). -/
def send_audio (fileExists : Bool) (pending : Bool) : ApiResult × Bool :=
  if fileExists then (ApiResult.ok, true)
  else (ApiResult.error 404 ("Audio file not found"), pending)

/-- GET /audio (unity.py lines 307-328): 204 empty when not pending;
otherwise clear the flag, then serve the file bytes (500 if the read
fails, with the flag already cleared). -/
def audio_get (readOk : Bool) (pending : Bool) : AudioResp × Bool :=
  if pending then (if readOk then (AudioResp.content, false) else (AudioResp.readError, false))
  else (AudioResp.noContent, pending)

/-- n successive POST /send-audio calls (file present) folded over the flag. -/
def triggerN (n : Nat) (p : Bool) : Bool :=
  Nat.rec p (fun _ q => (send_audio true q).2) n

/-- k successive GET /audio polls: the list of responses and the final flag. -/
def pollRun (readOk : Bool) (p : Bool) : Nat → List AudioResp × Bool
  | 0 => ([], p)
  | k + 1 =>
    let r := audio_get readOk p
    let rest := pollRun readOk r.2 k
    (r.1 :: rest.1, rest.2)

/-! ### Transcript board (unity.py lines 331-393) -/

/-- The current_transcript / transcript_expire_time pair (unity.py 45-46). -/
structure TranscriptState where
  text : String
  expire : ℚ
deriving DecidableEq

/-- Initial transcript state (unity.py lines 45-46). -/
def initialTranscript : TranscriptState := ⟨"", 0⟩

/-- POST /transcript (unity.py receive_transcript, lines 331-376): strip the
raw body; reject an empty body with a 400; split off the first
whitespace-separated token as the duration (defaulting to the literal "0"
when there is a single token, and to the value 0 when unparseable), and
store the remaining text with expiry now + max(0, duration) + 5. -/
def receive_transcript (rawBody : String) (now : ℚ) (s : TranscriptState) :
    ApiResult × TranscriptState :=
  let raw := pyStrip rawBody
  if raw = "" then (ApiResult.error 400 ("empty body"), s)
  else
    let parts := pySplitMax1 raw.data
    let durationStr : String :=
      match parts with
      | [_] => "0"
      | w :: _ :: _ => String.mk w
      | [] => "0"
    let text : String :=
      match parts with
      | [w] => String.mk w
      | _ :: r :: _ => String.mk r
      | [] => ""
    let duration : ℚ := (pyFloat? durationStr).getD 0
    let displaySeconds : ℚ := max 0 duration + 5
    (ApiResult.ok, ⟨text, now + displaySeconds⟩)

/-- The parts the transcript endpoint splits a stripped body into. -/
def transcriptParts (raw : String) : List (List Char) :=
  pySplitMax1 (pyStrip raw).data

/-- The duration the transcript endpoint reads off a body: the first
whitespace-separated token parsed as a float, defaulting to 0 both when
the token is unparseable and when the body is a single token. -/
def transcriptDuration (raw : String) : ℚ :=
  match transcriptParts raw with
  | [_] => 0
  | w :: _ :: _ => (pyFloat? (String.mk w)).getD 0
  | [] => 0

/-- The text the transcript endpoint stores for a body: everything after
the first whitespace-separated token, or the whole (single-token) body. -/
def transcriptText (raw : String) : String :=
  match transcriptParts raw with
  | [w] => String.mk w
  | _ :: r :: _ => String.mk r
  | [] => ""

/-- GET /transcript/latest (unity.py latest_transcript, lines 379-393):
empty string when the stored text is falsy or now is at/past expiry,
otherwise the stored text.  The handler always succeeds. -/
def latest_transcript (now : ℚ) (s : TranscriptState) : String :=
  if s.text = "" ∨ s.expire ≤ now then "" else s.text

/-- Transcript states reachable from the initial state through POST
/transcript calls made at nonnegative wall-clock instants. -/
inductive ReachableTranscript : TranscriptState → Prop where
  | init : ReachableTranscript initialTranscript
  | publish (raw : String) (now : ℚ) (hnow : 0 ≤ now) {s : TranscriptState}
      (h : ReachableTranscript s) :
      ReachableTranscript (receive_transcript raw now s).2

/-! ### Frame relay (unity.py lines 76-112)

base64.b64decode with validate=False: characters outside the base64
alphabet and the padding character are discarded, then 4-character groups
are decoded; a group may end in one or two padding characters; leftover
characters are a padding error. -/

/-- Value of a base64 alphabet character. -/
def b64CharVal (c : Char) : Option Nat :=
  if 'A' ≤ c ∧ c ≤ 'Z' then some (c.toNat - 65)
  else if 'a' ≤ c ∧ c ≤ 'z' then some (c.toNat - 71)
  else if '0' ≤ c ∧ c ≤ '9' then some (c.toNat + 4)
  else if c = '+' then some 62
  else if c = '/' then some 63
  else none

/-- Whether a character is in the base64 data alphabet. -/
def isB64Data (c : Char) : Bool := (b64CharVal c).isSome

/-- Decode a filtered base64 character stream group by group. -/
def b64DecodeGroups : List Char → Option (List Nat)
  | [] => some []
  | a :: b :: '=' :: '=' :: rest => do
    let va ← b64CharVal a
    let vb ← b64CharVal b
    let tail ← b64DecodeGroups rest
    pure ((va * 4 + vb / 16) :: tail)
  | a :: b :: c :: '=' :: rest => do
    let va ← b64CharVal a
    let vb ← b64CharVal b
    let vc ← b64CharVal c
    let tail ← b64DecodeGroups rest
    pure ((va * 4 + vb / 16) :: ((vb % 16) * 16 + vc / 4) :: tail)
  | a :: b :: c :: d :: rest => do
    let va ← b64CharVal a
    let vb ← b64CharVal b
    let vc ← b64CharVal c
    let vd ← b64CharVal d
    let tail ← b64DecodeGroups rest
    pure ((va * 4 + vb / 16) :: ((vb % 16) * 16 + vc / 4) :: ((vc % 4) * 64 + vd) :: tail)
  | _ => none

/-- Model of Python base64.b64decode on a str payload (validate=False). -/
def b64decode (s : String) : Option (List Nat) :=
  b64DecodeGroups (s.data.filter (fun c => isB64Data c || c = '='))

/-- POST /send (unity.py receive_frame, lines 76-100): a missing or falsy
"frame" field is a 400; a base64 decode failure is a 500 that leaves the
stored frame untouched; a successful decode replaces the single slot. -/
def receive_frame (frameField : Option String) (stored : Option (List Nat)) :
    ApiResult × Option (List Nat) :=
  match frameField with
  | none => (ApiResult.error 400 ("no frame provided"), stored)
  | some f =>
    if f = "" then (ApiResult.error 400 ("no frame provided"), stored)
    else
      match b64decode f with
      | none => (ApiResult.error 500 ("decode failed"), stored)
      | some bytes => (ApiResult.ok, some bytes)

/-- GET /latest.jpg (unity.py lines 103-112): the stored frame, none = 404. -/
def latest_jpg (stored : Option (List Nat)) : Option (List Nat) := stored

/-- Modelled from the spec: "well-formed image data".  A JPEG payload must
at minimum begin with the SOI marker 0xFF 0xD8; the endpoint itself never
performs any such check, which is what claim C5 turns on. -/
def isJpegData : List Nat → Bool
  | 0xFF :: 0xD8 :: _ => true
  | _ => false

end Eous.Unity

namespace Eous.Lyrics

/-- Matching a maximal nonempty digit run, as the regex fragment d+ does:
the run and the remainder, or none when no digit starts the input. -/
def expectDigits (l : List Char) : Option (List Char × List Char) :=
  let d := l.takeWhile Char.isDigit
  if d = [] then none else some (d, l.dropWhile Char.isDigit)

/-- lyrics.py parse_lrc_timestamps, per-line matching (lines 92-102).
Models re.match against the anchored pattern: an opening bracket, a
nonempty digit run, a colon, a nonempty digit run, a dot, a nonempty digit
run, a closing bracket, then the rest of the line (captured and stripped).
The digit runs are greedy; since a digit can never begin the literal that
follows each run, greedy matching coincides with the maximal digit run. -/
def parseLine (l : List Char) : Option (ℚ × String) :=
  match l with
  | '[' :: rest =>
    match expectDigits rest with
    | some (m, ':' :: r1) =>
      match expectDigits r1 with
      | some (a, '.' :: r2) =>
        match expectDigits r2 with
        | some (b, ']' :: text) =>
          some ((digitsToNat m : ℚ) * 60 +
                  ((digitsToNat a : ℚ) + (digitsToNat b : ℚ) / 10 ^ b.length),
                pyStrip (String.mk text))
        | _ => none
      | _ => none
    | _ => none
  | _ => none

/-- lyrics.py parse_lrc_timestamps (lines 77-104): empty result on falsy
input, otherwise split into lines on the newline character and collect the
(minutes * 60 + seconds, stripped text) pair of every matching line, in
line order, silently dropping lines that fail the pattern. -/
def parse_lrc_timestamps (syncedLyrics : String) : List (ℚ × String) :=
  if syncedLyrics = "" then []
  else (syncedLyrics.data.splitOn '\n').filterMap parseLine

/-- Modelled from the spec: a line of the timestamp-markup form
[mm:ss.cc]text, given by its decomposition into the minute digits m, the
integral second digits a, the centisecond digits b and the trailing text. -/
def LrcForm (l : List Char) (m a b t : List Char) : Prop :=
  l = '[' :: (m ++ ':' :: (a ++ '.' :: (b ++ ']' :: t))) ∧
    m ≠ [] ∧ a ≠ [] ∧ b ≠ [] ∧
    (∀ c ∈ m, c.isDigit) ∧ (∀ c ∈ a, c.isDigit) ∧ (∀ c ∈ b, c.isDigit)

/-- Modelled from the spec: the (offsetSeconds, text) value of a matching
line, offset = minutes * 60 + seconds with the fractional seconds read
from the digits after the dot, text stripped of surrounding whitespace. -/
def lrcValue (m a b t : List Char) : ℚ × String :=
  ((digitsToNat m : ℚ) * 60 + ((digitsToNat a : ℚ) + (digitsToNat b : ℚ) / 10 ^ b.length),
    pyStrip (String.mk t))

end Eous.Lyrics

namespace Eous.Rpi

open Eous.Unity

/-- The dirs dictionary of the command-forwarding loop (rpi.py 394-404):
server text token to single-character Arduino command. -/
def dirs (t : String) : Option String :=
  if t = "FORWARD" then some ("W")
  else if t = "BACKWARD" then some ("S")
  else if t = "LEFT" then some ("A")
  else if t = "RIGHT" then some ("D")
  else if t = "NOT" then some ("X")
  else if t = "STOP" then some ("X")
  else if t = "NOTMOVING" then some ("X")
  else if t = "NOT_MOVING" then some ("X")
  else if t = "NOT MOVING" then some ("X")
  else none

/-- Token extraction in the forwarding loop (rpi.py 366-368): strip the
response text; an empty result yields the empty token, otherwise the first
whitespace-separated word, uppercased. -/
def extractToken (respText : String) : String :=
  let raw := pyStrip respText
  if raw = "" then ""
  else pyUpper (String.mk ((pySplitWs raw.data).headD []))

/-- One iteration of command_poll_loop (rpi.py 358-420) on a 200 response:
given the agent-local last captured frame, the last forwarded command and
the response text, return the new last forwarded command, the serial
writes performed and the photo files written.  A PHOTO token saves the
frame (if any) and never touches the Arduino or the last forwarded
command; a recognized token is forwarded only when its mapped command
differs from the last forwarded one; anything else is ignored. -/
def command_poll_step (frame : Option (List Nat)) (last : Option String)
    (respText : String) : Option String × List String × List (List Nat) :=
  let token := extractToken respText
  if token = "PHOTO" then
    (last, [], match frame with | none => [] | some b => [b])
  else
    match dirs token with
    | some m => if some m ≠ last then (some m, [m], []) else (last, [], [])
    | none => (last, [], [])

/-- The forwarding loop folded over a finite sequence of polls, each poll
supplying the response text and the frame available at that instant. -/
def command_poll_run (last : Option String) :
    List (String × Option (List Nat)) → Option String × List String × List (List Nat)
  | [] => (last, [], [])
  | (r, f) :: rest =>
    let s1 := command_poll_step f last r
    let s2 := command_poll_run s1.1 rest
    (s2.1, s1.2.1 ++ s2.2.1, s1.2.2 ++ s2.2.2)

/-- The Arduino command a recognized poll maps to. -/
def mappedOf (respText : String) : String :=
  (dirs (extractToken respText)).getD ""

/-- Modelled from the spec: the number of maximal runs of identical
consecutive values in a sequence. -/
def countRuns : List String → Nat
  | [] => 0
  | [_] => 1
  | a :: b :: rest => (if a = b then 0 else 1) + countRuns (b :: rest)

/-- Collapse consecutive duplicates relative to a last-forwarded value:
exactly the values the debounced loop lets through. -/
def dedupRuns (last : Option String) : List String → List String
  | [] => []
  | m :: rest => if some m = last then dedupRuns last rest else m :: dedupRuns (some m) rest

/-! ### Music / lyric scheduling flow (rpi.py handle_music_spotify_flow) -/

/-- Externally visible events of the scheduling part of the music flow,
stamped with the wall-clock instant at which they happen. -/
inductive FlowEvent where
  | anchorRecorded (t : ℚ) : FlowEvent
  | playbackStarted (t : ℚ) : FlowEvent
  | playbackFailed (t : ℚ) : FlowEvent
  | publish (t : ℚ) (body : String) : FlowEvent
  | errorReport (t : ℚ) (body : String) : FlowEvent
deriving DecidableEq

/-- The lyric publishing loop (rpi.py 208-219): from clock instant c, for
each (timestamp, text) pair in sequence order, busy-wait until the clock
reaches start_time + timestamp, then send "10 " + text to the transcript
endpoint. -/
def lyricPublishes (anchor : ℚ) : ℚ → List (ℚ × String) → List FlowEvent
  | _, [] => []
  | c, (ts, txt) :: rest =>
    let tpub := max c (anchor + ts)
    FlowEvent.publish tpub ("10 " ++ txt) :: lyricPublishes anchor tpub rest

/-- Scheduling portion of handle_music_spotify_flow (rpi.py 190-224), from
the point where nonempty parsed lines exist.  t0 is the clock when
start_time is recorded (line 193); playDur is the wall time the
spotify.play_song call takes (line 197); playOk tells whether it raised.
On failure the flow reports the distinct spotify_playback_failed reason
and returns before any lyric line is sent. -/
def handle_music_spotify_sched (t0 playDur : ℚ) (playOk : Bool)
    (lines : List (ℚ × String)) : List FlowEvent :=
  if playOk then
    FlowEvent.anchorRecorded t0 :: FlowEvent.playbackStarted (t0 + playDur) ::
      lyricPublishes t0 (t0 + playDur) lines
  else
    [FlowEvent.anchorRecorded t0, FlowEvent.playbackFailed (t0 + playDur),
      FlowEvent.errorReport (t0 + playDur) ("5 Error starting Spotify playback")]

/-- The publish events of an event list. -/
def publishEvents (evs : List FlowEvent) : List FlowEvent :=
  evs.filter (fun e => match e with | FlowEvent.publish _ _ => true | _ => false)

/-! ### Audio processing pipeline (rpi.py process_audio_file) -/

/-- Python runtime errors the embedding distinguishes. -/
inductive PyErr where
  | nameError (var : String) : PyErr
deriving DecidableEq, Repr

/-- The local-variable environment of a running Python function. -/
def Env := List (String × String)

/-- Reading a variable: a NameError when the name is not bound. -/
def lookupVar (env : Env) (x : String) : Except PyErr String :=
  match List.find? (fun p => p.1 = x) env with
  | some p => Except.ok p.2
  | none => Except.error (PyErr.nameError x)

/-- The music-keyword test of process_audio_file (rpi.py 246-247). -/
def mentionsMusic (lowerText : String) : Bool :=
  strContains lowerText ("music") || strContains lowerText ("spotify") ||
    strContains lowerText ("song")

/-- The local environment of process_audio_file at line 253, on the
non-music path: client (line 233), the audio_path parameter,
transcribed_text (line 237) and lower_text (line 246) are bound;
song_name is assigned only inside handle_music_spotify_flow and is never
bound in this frame. -/
def nonmusicEnv (audioPath transcribedText : String) : Env :=
  [("client", "OpenAI client"), ("audio_path", audioPath),
    ("transcribed_text", transcribedText), ("lower_text", pyLower transcribedText)]

/-- The branch of process_audio_file on a nonempty transcript (rpi.py
246-257).  The music branch dispatches to handle_music_spotify_flow
(modelled separately); the non-music branch runs the ChatGPT TTS flow
(which catches its own errors) and then evaluates the f-string
"5 No synced lyrics available for " + song_name, which reads the unbound
song_name variable. -/
def process_audio_file_branch (transcribedText audioPath : String) :
    Except PyErr String :=
  let lowerText := pyLower transcribedText
  if mentionsMusic lowerText then Except.ok ("music flow")
  else do
    let env := nonmusicEnv audioPath transcribedText
    let sn ← lookupVar env ("song_name")
    pure ("5 No synced lyrics available for " ++ sn)

end Eous.Rpi

/-! ## Helper lemmas -/

namespace Eous.Unity

lemma triggerN_succ (n : Nat) (p : Bool) : triggerN (n + 1) p = true := by
  simp [triggerN, send_audio]

lemma pollRun_false_replicate (readOk : Bool) :
    ∀ k, pollRun readOk false k = (List.replicate k AudioResp.noContent, false)
  | 0 => rfl
  | k + 1 => by
    simp [pollRun, audio_get, pollRun_false_replicate readOk k, List.replicate]

lemma acceptedOf_iff (c : String) :
    acceptedOf c = true ↔
      (pyUpper c = "W" ∨ pyUpper c = "A" ∨ pyUpper c = "S" ∨
        pyUpper c = "D" ∨ pyUpper c = "X") := by
  simp [acceptedOf]
  tauto

lemma post_accepted (c cur : String) (h : acceptedOf c = true) :
    command_endpoint_post c cur =
      (ApiResult.ok, set_current_command_from_key (pyUpper c) cur) := by
  unfold command_endpoint_post
  rw [if_pos]
  rcases (acceptedOf_iff c).1 h with h1 | h1 | h1 | h1 | h1 <;> simp [h1]

lemma set_current_of_accepted (c cur : String) (h : acceptedOf c = true) :
    set_current_command_from_key (pyUpper c) cur =
      (commandMapping (pyUpper c)).getD "" := by
  rcases (acceptedOf_iff c).1 h with h1 | h1 | h1 | h1 | h1 <;> rw [h1] <;> rfl

lemma post_rejected (c cur : String) (h : acceptedOf c = false) :
    command_endpoint_post c cur = (ApiResult.error 400 ("invalid command"), cur) := by
  unfold command_endpoint_post
  rw [if_neg]
  intro hor
  rcases hor with h1 | h1 | h1 | h1 | h1 <;> simp [acceptedOf, h1] at h

lemma postSeq_filter (cmds : List String) (cur : String) :
    postSeq cmds cur = postSeq (cmds.filter acceptedOf) cur := by
  induction cmds generalizing cur with
  | nil => rfl
  | cons c rest ih =>
    by_cases h : acceptedOf c = true
    · rw [show postSeq (c :: rest) cur = postSeq rest (command_endpoint_post c cur).2 from rfl]
      rw [List.filter_cons_of_pos h]
      rw [show postSeq (c :: List.filter acceptedOf rest) cur
            = postSeq (List.filter acceptedOf rest) (command_endpoint_post c cur).2 from rfl]
      exact ih _
    · have h0 : acceptedOf c = false := by simpa using h
      rw [show postSeq (c :: rest) cur = postSeq rest (command_endpoint_post c cur).2 from rfl]
      rw [post_rejected c cur h0]
      rw [List.filter_cons_of_neg (by simp [h0])]
      exact ih _

lemma postSeq_all_rejected (cmds : List String) (cur : String)
    (h : cmds.filter acceptedOf = []) : postSeq cmds cur = cur := by
  rw [postSeq_filter, h]
  rfl

lemma postSeq_getLast (cmds : List String) (cur c : String)
    (h : (cmds.filter acceptedOf).getLast? = some c) :
    postSeq cmds cur = (commandMapping (pyUpper c)).getD "" := by
  induction cmds generalizing cur with
  | nil => simp at h
  | cons d rest ih =>
    by_cases hd : acceptedOf d = true
    · rw [List.filter_cons_of_pos hd] at h
      rw [show postSeq (d :: rest) cur = postSeq rest (command_endpoint_post d cur).2 from rfl]
      rcases hrest : rest.filter acceptedOf with _ | ⟨e, l⟩
      · rw [hrest] at h
        simp at h
        subst h
        rw [postSeq_all_rejected rest _ hrest, post_accepted d cur hd,
          set_current_of_accepted d cur hd]
      · rw [hrest] at h
        rw [List.getLast?_cons_cons] at h
        rw [← hrest] at h
        exact ih _ h
    · have h0 : acceptedOf d = false := by simpa using hd
      rw [List.filter_cons_of_neg (by simp [h0])] at h
      rw [show postSeq (d :: rest) cur = postSeq rest (command_endpoint_post d cur).2 from rfl]
      rw [post_rejected d cur h0]
      exact ih _ h

lemma dropWhile_ne_nil_head (p : Char → Bool) (l : List Char)
    (h : l.dropWhile p ≠ []) :
    ∃ c t, l.dropWhile p = c :: t ∧ p c = false := by
  induction l with
  | nil => simp at h
  | cons a t ih =>
    by_cases ha : p a = true
    · rw [List.dropWhile_cons_of_pos ha] at h ⊢
      exact ih h
    · rw [List.dropWhile_cons_of_neg ha]
      exact ⟨a, t, rfl, by simpa using ha⟩

lemma getLast?_dropWhile (p : Char → Bool) (l : List Char)
    (h : l.dropWhile p ≠ []) :
    (l.dropWhile p).getLast? = l.getLast? := by
  obtain ⟨t, ht⟩ := (List.dropWhile_suffix p : l.dropWhile p <:+ l)
  calc (l.dropWhile p).getLast?
      = (t ++ l.dropWhile p).getLast? := (List.getLast?_append_of_ne_nil t h).symm
    _ = l.getLast? := by rw [ht]

lemma pyStripList_head (l : List Char) (h : pyStripList l ≠ []) :
    ∃ c t, pyStripList l = c :: t ∧ isPySpace c = false := by
  rcases hPL : pyStripList l with _ | ⟨c, t⟩
  · exact absurd hPL h
  refine ⟨c, t, rfl, ?_⟩
  have h1 : (pyStripList l).head? = some c := by rw [hPL]; rfl
  unfold pyStripList at h1
  rw [List.head?_reverse] at h1
  have hz0 : (l.dropWhile isPySpace).reverse.dropWhile isPySpace ≠ [] := by
    intro he
    rw [he] at h1
    exact Option.noConfusion h1
  rw [getLast?_dropWhile isPySpace _ hz0, List.getLast?_reverse] at h1
  have hy0 : l.dropWhile isPySpace ≠ [] := by
    intro he
    rw [he] at h1
    exact Option.noConfusion h1
  obtain ⟨c2, t2, hct, hc2⟩ := dropWhile_ne_nil_head isPySpace l hy0
  rw [hct] at h1
  simp only [List.head?_cons, Option.some.injEq] at h1
  rwa [← h1]

lemma stringMk_ne_empty (l : List Char) (h : l ≠ []) : String.mk l ≠ "" := by
  intro he
  exact h (congrArg String.data he)

lemma pySplitMax1_cons (c : Char) (t : List Char) (hc : isPySpace c = false) :
    pySplitMax1 (c :: t) = [c :: t.takeWhile (fun x => !isPySpace x)] ∨
    (∃ rest, pySplitMax1 (c :: t) = [c :: t.takeWhile (fun x => !isPySpace x), rest] ∧
      rest ≠ []) := by
  unfold pySplitMax1
  simp only [List.dropWhile_cons, hc, if_false, Bool.false_eq_true]
  rw [if_neg (by simp)]
  simp only [List.takeWhile_cons, hc, Bool.not_false, if_true]
  split
  · left
    rfl
  · right
    exact ⟨_, rfl, by assumption⟩

lemma transcriptText_ne_empty (raw : String) (h : pyStrip raw ≠ "") :
    transcriptText raw ≠ "" := by
  have hl : pyStripList raw.data ≠ [] := by
    intro he
    apply h
    unfold pyStrip
    rw [he]
  obtain ⟨c, t, hct, hc⟩ := pyStripList_head raw.data hl
  have hdata : (pyStrip raw).data = c :: t := by
    unfold pyStrip
    rw [hct]
  unfold transcriptText transcriptParts
  rw [hdata]
  rcases pySplitMax1_cons c t hc with h1 | ⟨rest, h1, hrest⟩ <;> rw [h1]
  · exact stringMk_ne_empty _ (by simp)
  · exact stringMk_ne_empty _ hrest

lemma receive_transcript_error (raw : String) (now : ℚ) (s : TranscriptState)
    (h : pyStrip raw = "") :
    receive_transcript raw now s = (ApiResult.error 400 ("empty body"), s) := by
  unfold receive_transcript
  rw [if_pos h]

lemma receive_transcript_publish (raw : String) (now : ℚ) (s : TranscriptState)
    (h : pyStrip raw ≠ "") :
    receive_transcript raw now s =
      (ApiResult.ok,
        ⟨transcriptText raw, now + (max 0 (transcriptDuration raw) + 5)⟩) := by
  unfold receive_transcript transcriptText transcriptDuration transcriptParts
  rw [if_neg h]
  rcases hparts : pySplitMax1 (pyStrip raw).data with _ | ⟨w, rest⟩
  · rfl
  · rcases rest with _ | ⟨r, rest2⟩ <;> rfl

lemma reachableTranscript_empty_expire {s : TranscriptState}
    (h : ReachableTranscript s) : s.text = "" → s.expire = 0 := by
  induction h with
  | init => intro; rfl
  | publish raw now hnow h ih =>
    by_cases hr : pyStrip raw = ""
    · rw [receive_transcript_error raw now _ hr]
      exact ih
    · rw [receive_transcript_publish raw now _ hr]
      intro ht
      exact absurd ht (transcriptText_ne_empty raw hr)

lemma commandMapping_mem (k t : String) (h : commandMapping k = some t) :
    t ∈ (["FORWARD", "BACKWARD", "LEFT", "RIGHT", "NOT_MOVING", "Not Moving",
      "PHOTO"] : List String) := by
  have step : commandMapping k = some t →
      t ∈ (["FORWARD", "BACKWARD", "LEFT", "RIGHT", "NOT_MOVING", "Not Moving",
        "PHOTO"] : List String) := by
    unfold commandMapping
    repeat' split
    all_goals intro h2
    all_goals
      first
      | (injection h2 with h3; subst h3; decide)
      | exact Option.noConfusion h2
  exact step h

end Eous.Unity

namespace Eous.Rpi

lemma command_poll_run_append (last : Option String)
    (l₁ l₂ : List (String × Option (List Nat))) :
    command_poll_run last (l₁ ++ l₂) =
      ((command_poll_run (command_poll_run last l₁).1 l₂).1,
        (command_poll_run last l₁).2.1 ++
          (command_poll_run (command_poll_run last l₁).1 l₂).2.1,
        (command_poll_run last l₁).2.2 ++
          (command_poll_run (command_poll_run last l₁).1 l₂).2.2) := by
  induction l₁ generalizing last with
  | nil => simp [command_poll_run]
  | cons p rest ih =>
    obtain ⟨r, f⟩ := p
    simp only [List.cons_append, command_poll_run, List.append_eq]
    rw [ih]
    simp [List.append_assoc]

lemma run_writes_append (last : Option String)
    (l₁ l₂ : List (String × Option (List Nat))) :
    (command_poll_run last (l₁ ++ l₂)).2.1 =
      (command_poll_run last l₁).2.1 ++
        (command_poll_run (command_poll_run last l₁).1 l₂).2.1 := by
  rw [command_poll_run_append]

lemma dirs_photo : dirs ("PHOTO") = none := by decide

lemma poll_step_photo (frame : Option (List Nat)) (last : Option String)
    (raw : String) (h : extractToken raw = "PHOTO") :
    command_poll_step frame last raw =
      (last, [], match frame with | none => [] | some b => [b]) := by
  unfold command_poll_step
  rw [h, if_pos rfl]

lemma poll_step_recognized (f : Option (List Nat)) (last : Option String)
    (r m : String) (hm : dirs (extractToken r) = some m) :
    command_poll_step f last r =
      if some m = last then (last, [], []) else (some m, [m], []) := by
  have hph : extractToken r ≠ "PHOTO" := by
    intro he
    rw [he, dirs_photo] at hm
    exact Option.noConfusion hm
  unfold command_poll_step
  rw [if_neg hph, hm]
  by_cases hl : some m = last <;> simp [hl]

lemma run_recognized_writes (polls : List (String × Option (List Nat)))
    (last : Option String)
    (h : ∀ p ∈ polls, (dirs (extractToken p.1)).isSome = true) :
    (command_poll_run last polls).2.1 =
      dedupRuns last (polls.map (fun p => mappedOf p.1)) := by
  induction polls generalizing last with
  | nil => rfl
  | cons p rest ih =>
    obtain ⟨r, f⟩ := p
    have hr := h (r, f) (by simp)
    obtain ⟨m, hm⟩ := Option.isSome_iff_exists.1 hr
    have hmap : mappedOf r = m := by simp [mappedOf, hm]
    simp only [command_poll_run, List.map_cons]
    rw [poll_step_recognized f last r m hm]
    simp only [hmap]
    have ihr := fun (l : Option String) =>
      ih l (fun q hq => h q (List.mem_cons_of_mem _ hq))
    by_cases hl : some m = last
    · rw [if_pos hl]
      simp only [dedupRuns]
      rw [if_pos hl]
      simpa using ihr last
    · rw [if_neg hl]
      simp only [dedupRuns]
      rw [if_neg hl]
      simpa using ihr (some m)

lemma dedupRuns_some_length :
    ∀ (ms : List String) (x : String),
      (dedupRuns (some x) ms).length + 1 = countRuns (x :: ms)
  | [], _ => rfl
  | b :: rest, x => by
    by_cases hbx : b = x
    · subst hbx
      have ih := dedupRuns_some_length rest b
      simp only [dedupRuns, countRuns]
      simpa using ih
    · have ih := dedupRuns_some_length rest b
      simp only [dedupRuns, countRuns]
      rw [if_neg (by simp [hbx]), if_neg (fun hxb => hbx hxb.symm)]
      simp only [List.length_cons]
      omega

lemma dedupRuns_none_length (ms : List String) :
    (dedupRuns none ms).length = countRuns ms := by
  cases ms with
  | nil => rfl
  | cons a rest =>
    simp only [dedupRuns]
    rw [if_neg (by simp)]
    simp only [List.length_cons]
    have := dedupRuns_some_length rest a
    omega

lemma publishEvents_lyricPublishes (anchor : ℚ) (lines : List (ℚ × String)) :
    ∀ c, publishEvents (lyricPublishes anchor c lines) = lyricPublishes anchor c lines := by
  induction lines with
  | nil => intro c; rfl
  | cons l rest ih =>
    intro c
    obtain ⟨ts, txt⟩ := l
    unfold publishEvents at ih ⊢
    simp only [lyricPublishes, List.filter_cons]
    simp [ih]

lemma lyricPublishes_forall₂ (anchor : ℚ) (lines : List (ℚ × String)) :
    ∀ c, List.Forall₂ (fun (l : ℚ × String) (e : FlowEvent) =>
        ∃ t, e = FlowEvent.publish t ("10 " ++ l.2) ∧ anchor + l.1 ≤ t)
      lines (lyricPublishes anchor c lines) := by
  induction lines with
  | nil => intro c; exact List.Forall₂.nil
  | cons l rest ih =>
    intro c
    obtain ⟨ts, txt⟩ := l
    exact List.Forall₂.cons ⟨max c (anchor + ts), rfl, le_max_right _ _⟩ (ih _)

lemma run_replicate_same (v m : String) (hm : dirs (extractToken v) = some m) :
    ∀ n, command_poll_run (some m) (List.replicate n (v, none)) = (some m, [], [])
  | 0 => rfl
  | n + 1 => by
    simp only [List.replicate, command_poll_run]
    rw [poll_step_recognized none (some m) v m hm, if_pos rfl]
    simp [run_replicate_same v m hm n]

lemma run_photo_replicate (f : Option (List Nat)) (last : Option String) :
    ∀ k, ((command_poll_run last (List.replicate k (("PHOTO"), f))).1 = last ∧
      (command_poll_run last (List.replicate k (("PHOTO"), f))).2.1 = [])
  | 0 => ⟨rfl, rfl⟩
  | k + 1 => by
    have ih := run_photo_replicate f last k
    simp only [List.replicate, command_poll_run]
    rw [poll_step_photo f last ("PHOTO") (by decide)]
    exact ⟨ih.1, by simpa using ih.2⟩

end Eous.Rpi

namespace Eous.Lyrics

lemma takeWhile_all_append (p : Char → Bool) (l₁ : List Char) (c : Char)
    (l₂ : List Char) (h₁ : ∀ x ∈ l₁, p x = true) (hc : p c = false) :
    (l₁ ++ c :: l₂).takeWhile p = l₁ ∧ (l₁ ++ c :: l₂).dropWhile p = c :: l₂ := by
  induction l₁ with
  | nil => simp [List.takeWhile_cons, List.dropWhile_cons, hc]
  | cons a t ih =>
    have ha := h₁ a (by simp)
    have iht := ih (fun x hx => h₁ x (List.mem_cons_of_mem _ hx))
    simp [List.takeWhile_cons, List.dropWhile_cons, ha, iht.1, iht.2]

lemma expectDigits_of_form (d : List Char) (c : Char) (r : List Char)
    (hd : ∀ x ∈ d, Char.isDigit x = true) (hne : d ≠ [])
    (hc : Char.isDigit c = false) :
    expectDigits (d ++ c :: r) = some (d, c :: r) := by
  obtain ⟨h1, h2⟩ := takeWhile_all_append Char.isDigit d c r hd hc
  unfold expectDigits
  rw [h1, h2, if_neg hne]

lemma expectDigits_inv (l d r : List Char) (h : expectDigits l = some (d, r)) :
    l = d ++ r ∧ d ≠ [] ∧ (∀ x ∈ d, Char.isDigit x = true) := by
  unfold expectDigits at h
  by_cases h0 : l.takeWhile Char.isDigit = []
  · rw [if_pos h0] at h
    exact Option.noConfusion h
  · rw [if_neg h0] at h
    injection h with h1
    injection h1 with hd hr
    subst hd
    subst hr
    exact ⟨(List.takeWhile_append_dropWhile Char.isDigit l).symm, h0,
      fun x hx => List.mem_takeWhile_imp hx⟩

lemma parseLine_of_form (l m a b t : List Char) (h : LrcForm l m a b t) :
    parseLine l = some (lrcValue m a b t) := by
  obtain ⟨hl, hm, ha, hb, hdm, hda, hdb⟩ := h
  subst hl
  simp only [parseLine,
    expectDigits_of_form m ':' (a ++ '.' :: (b ++ ']' :: t)) hdm hm (by decide),
    expectDigits_of_form a '.' (b ++ ']' :: t) hda ha (by decide),
    expectDigits_of_form b ']' t hdb hb (by decide)]
  rfl

lemma parseLine_some_form (l : List Char) (v : ℚ × String)
    (h : parseLine l = some v) :
    ∃ m a b t, LrcForm l m a b t ∧ v = lrcValue m a b t := by
  unfold parseLine at h
  split at h
  case _ rest =>
    split at h
    case _ m r1 heq1 =>
      split at h
      case _ a r2 heq2 =>
        split at h
        case _ b text heq3 =>
          obtain ⟨e1, hm, hdm⟩ := expectDigits_inv rest m (':' :: r1) heq1
          obtain ⟨e2, ha, hda⟩ := expectDigits_inv r1 a ('.' :: r2) heq2
          obtain ⟨e3, hb, hdb⟩ := expectDigits_inv r2 b (']' :: text) heq3
          injection h with hv
          refine ⟨m, a, b, text, ⟨?_, hm, ha, hb, hdm, hda, hdb⟩, hv.symm⟩
          rw [e1, e2, e3]
        case _ hne => exact Option.noConfusion h
      case _ hne => exact Option.noConfusion h
    case _ hne => exact Option.noConfusion h
  case _ hne => exact Option.noConfusion h

lemma parse_lrc_eq_filterMap (s : String) :
    parse_lrc_timestamps s = (s.data.splitOn '\n').filterMap parseLine := by
  unfold parse_lrc_timestamps
  by_cases h : s = ""
  · rw [if_pos h, h]
    rfl
  · rw [if_neg h]

end Eous.Lyrics

/-! ## Claim theorems -/

namespace Eous

open Eous.Unity Eous.Rpi Eous.Lyrics

/-- C1: the audio hand-off pending flag is a single boolean, set
idempotently by POST /send-audio (when the backing file exists); after any
positive number N of triggers with no intervening poll, exactly the first
subsequent GET /audio returns the audio content and every one of the k
further polls returns the empty 204 no-content response, leaving the flag
clear until the next trigger. -/
theorem C1_audio_handoff (n k : Nat) (p0 : Bool) (hn : 1 ≤ n) :
    triggerN n p0 = true ∧
    (send_audio true (triggerN n p0)).1 = ApiResult.ok ∧
    (pollRun true (triggerN n p0) (k + 1)).1 =
      AudioResp.content :: List.replicate k AudioResp.noContent ∧
    (pollRun true (triggerN n p0) (k + 1)).2 = false := by
  obtain ⟨m, rfl⟩ : ∃ m, n = m + 1 := ⟨n - 1, by omega⟩
  have ht : triggerN (m + 1) p0 = true := triggerN_succ m p0
  refine ⟨ht, by simp [send_audio], ?_, ?_⟩ <;>
    simp [ht, pollRun, audio_get, pollRun_false_replicate]

/-- Witness for C1: two triggers, then three polls. -/
theorem C1_audio_handoff_witness :
    1 ≤ 2 ∧
    (triggerN 2 false = true ∧
      (send_audio true (triggerN 2 false)).1 = ApiResult.ok ∧
      (pollRun true (triggerN 2 false) 3).1 =
        AudioResp.content :: List.replicate 2 AudioResp.noContent ∧
      (pollRun true (triggerN 2 false) 3).2 = false) :=
  ⟨by decide, C1_audio_handoff 2 2 false (by decide)⟩

/-- C5 counterexample: "aGVsbG8=" is valid base64 of the ASCII bytes of
the word hello, which are not image data, yet POST /send accepts it and
replaces a previously stored valid JPEG frame; so the endpoint does not
validate that payloads are well-formed image data, refuting the claim
that every malformed payload yields a decode error and leaves the prior
frame unchanged. -/
theorem C5_counterexample :
    receive_frame (some ("aGVsbG8=")) (some [255, 216, 255, 224]) =
      (ApiResult.ok, some [104, 101, 108, 108, 111]) ∧
    isJpegData [104, 101, 108, 108, 111] = false ∧
    latest_jpg (receive_frame (some ("aGVsbG8=")) (some [255, 216, 255, 224])).2 ≠
      some [255, 216, 255, 224] := by
  refine ⟨by decide, by decide, by decide⟩

/-- C5 (amended): POST /send validates that the payload is well-formed
base64 (not image data): a missing or empty frame field is rejected with
a 400 and a payload that fails base64 decoding is rejected with a decode
error, in both cases leaving the previously stored frame unchanged, while
every successfully decoded push replaces the single shared frame slot. -/
theorem C5_frame_push :
    (∀ stored, receive_frame none stored =
        (ApiResult.error 400 ("no frame provided"), stored)) ∧
    (∀ stored, receive_frame (some ("")) stored =
        (ApiResult.error 400 ("no frame provided"), stored)) ∧
    (∀ s stored, b64decode s = none →
        receive_frame (some s) stored = (ApiResult.error 500 ("decode failed"), stored)) ∧
    (∀ s b stored, b64decode s = some b → s ≠ "" →
        receive_frame (some s) stored = (ApiResult.ok, some b)) := by
  refine ⟨fun stored => rfl, fun stored => rfl, ?_, ?_⟩
  · intro s stored h
    have hs : s ≠ "" := by
      intro he
      rw [he] at h
      exact absurd h (by decide)
    simp [receive_frame, hs, h]
  · intro s b stored hb hs
    simp [receive_frame, hs, hb]

/-- Witness for C5: the payload QQ fails base64 decoding (bad padding) and
leaves the stored frame unchanged; the payload aGVsbG8= decodes and
replaces it. -/
theorem C5_frame_push_witness :
    b64decode ("QQ") = none ∧
    receive_frame (some ("QQ")) (some [255, 216]) =
      (ApiResult.error 500 ("decode failed"), some [255, 216]) ∧
    b64decode ("aGVsbG8=") = some [104, 101, 108, 108, 111] ∧
    ("aGVsbG8=" : String) ≠ "" ∧
    receive_frame (some ("aGVsbG8=")) (some [255, 216]) =
      (ApiResult.ok, some [104, 101, 108, 108, 111]) :=
  ⟨by decide, C5_frame_push.2.2.1 ("QQ") (some [255, 216]) (by decide), by decide, by decide,
    C5_frame_push.2.2.2 ("aGVsbG8=") [104, 101, 108, 108, 111] (some [255, 216])
      (by decide) (by decide)⟩

/-- C6 counterexample: the lowercase input w is not one of the five raw
tokens W/A/S/D/X, yet POST /command accepts it (the handler uppercases
first) and stores FORWARD; so the endpoint does not accept exactly the
raw tokens W/A/S/D/X. -/
theorem C6_counterexample :
    (command_endpoint_post ("w") initialCommand).1 = ApiResult.ok ∧
    (command_endpoint_post ("w") initialCommand).2 = "FORWARD" ∧
    ("w" : String) ∉ (["W", "A", "S", "D", "X"] : List String) := by
  refine ⟨by decide, by decide, by decide⟩

/-- C6 (amended): POST /command accepts exactly the inputs whose uppercase
form is one of W/A/S/D/X, mapping each to its semantic direction token;
any other input is rejected with a 400 validation error and leaves the
stored command unchanged, so after any sequence of write calls the stored
command equals the mapping of the most recently accepted token and
rejected tokens are never visible to a read. -/
theorem C6_command_write :
    (∀ c cur, ((command_endpoint_post c cur).1 = ApiResult.ok ↔ acceptedOf c = true)) ∧
    (∀ c cur, acceptedOf c = false →
        command_endpoint_post c cur = (ApiResult.error 400 ("invalid command"), cur)) ∧
    (∀ c cur, acceptedOf c = true →
        (commandMapping (pyUpper c)).isSome = true ∧
        (command_endpoint_post c cur).2 = (commandMapping (pyUpper c)).getD "") ∧
    (∀ cmds cur, postSeq cmds cur = postSeq (cmds.filter acceptedOf) cur) ∧
    (∀ cmds cur c, (cmds.filter acceptedOf).getLast? = some c →
        postSeq cmds cur = (commandMapping (pyUpper c)).getD "") := by
  refine ⟨?_, ?_, ?_, postSeq_filter, postSeq_getLast⟩
  · intro c cur
    constructor
    · intro h
      by_contra hc
      have h0 : acceptedOf c = false := by simpa using hc
      rw [post_rejected c cur h0] at h
      exact ApiResult.noConfusion h
    · intro h
      rw [post_accepted c cur h]
  · intro c cur h
    exact post_rejected c cur h
  · intro c cur h
    constructor
    · rcases (acceptedOf_iff c).1 h with h1 | h1 | h1 | h1 | h1 <;> rw [h1] <;> decide
    · rw [post_accepted c cur h, set_current_of_accepted c cur h]

/-- Witness for C6: the sequence w, ZZZ, s contains two accepted writes
and one rejected one; the stored command ends as the mapping of the last
accepted token s, and the rejected ZZZ is never visible. -/
theorem C6_command_write_witness :
    acceptedOf ("ZZZ") = false ∧
    ((["w", "ZZZ", "s"] : List String).filter acceptedOf).getLast? = some ("s") ∧
    postSeq (["w", "ZZZ", "s"]) initialCommand = (commandMapping (pyUpper ("s"))).getD "" :=
  ⟨by decide, by decide,
    C6_command_write.2.2.2.2 (["w", "ZZZ", "s"]) initialCommand ("s") (by decide)⟩

/-- C7 counterexample: the never-set default returned by GET /command is
NOT_MOVING, not STOP; moreover the state stored for the X key is the
mixed-case token Not Moving, which is reachable and outside the claimed
token set. -/
theorem C7_counterexample :
    command_endpoint_get initialCommand = "NOT_MOVING" ∧
    ("NOT_MOVING" : String) ≠ "STOP" ∧
    ReachableCommand ("Not Moving") ∧
    command_endpoint_get ("Not Moving") = "Not Moving" ∧
    ("Not Moving" : String) ∉
      (["FORWARD", "BACKWARD", "LEFT", "RIGHT", "NOT_MOVING", "PHOTO"] : List String) := by
  refine ⟨by decide, by decide, ?_, by decide, by decide⟩
  exact ReachableCommand.step ("X") ReachableCommand.init

/-- C7 (amended): GET /command always succeeds and returns the stored
token; the default when no command was ever set is NOT_MOVING, and for
every reachable state the returned token is drawn from the set FORWARD,
BACKWARD, LEFT, RIGHT, NOT_MOVING, Not Moving, PHOTO. -/
theorem C7_command_read :
    command_endpoint_get initialCommand = "NOT_MOVING" ∧
    (∀ cur, ReachableCommand cur →
        command_endpoint_get cur = cur ∧
        command_endpoint_get cur ∈
          (["FORWARD", "BACKWARD", "LEFT", "RIGHT", "NOT_MOVING", "Not Moving",
            "PHOTO"] : List String)) := by
  refine ⟨by decide, ?_⟩
  intro cur h
  have hmem : cur ∈ (["FORWARD", "BACKWARD", "LEFT", "RIGHT", "NOT_MOVING",
      "Not Moving", "PHOTO"] : List String) := by
    induction h with
    | init => decide
    | step cmd h ih =>
      unfold set_current_command_from_key
      rcases hm : commandMapping (pyUpper cmd) with _ | t
      · exact ih
      · exact commandMapping_mem _ t hm
  have hne : cur ≠ "" := by
    simp only [List.mem_cons, List.mem_singleton, List.not_mem_nil, or_false] at hmem
    rcases hmem with rfl | rfl | rfl | rfl | rfl | rfl | rfl <;> decide
  rw [command_endpoint_get, if_neg hne]
  exact ⟨rfl, hmem⟩

/-- Witness for C7: the reachable state after pressing W reads back as
FORWARD, inside the amended token set. -/
theorem C7_command_read_witness :
    ReachableCommand ("FORWARD") ∧
    command_endpoint_get ("FORWARD") = "FORWARD" ∧
    ("FORWARD" : String) ∈
      (["FORWARD", "BACKWARD", "LEFT", "RIGHT", "NOT_MOVING", "Not Moving",
        "PHOTO"] : List String) := by
  have hr : ReachableCommand ("FORWARD") :=
    ReachableCommand.step ("W") ReachableCommand.init
  have h := C7_command_read.2 ("FORWARD") hr
  exact ⟨hr, h.1, h.2⟩

/-- C3 counterexample: a publish whose body is whitespace-only is rejected
with a 400 and leaves a still-unexpired stored value completely
unchanged; the stored text remains hello rather than being replaced, and
the expiry stays 8 rather than becoming now + max(0, 0) + 5 = 6.  So a
publish call does not unconditionally replace the stored state. -/
theorem C3_counterexample :
    receive_transcript ("   ") 1 ⟨"hello", 8⟩ =
      (ApiResult.error 400 ("empty body"), ⟨"hello", 8⟩) ∧
    (⟨"hello", 8⟩ : TranscriptState).text ≠ "" ∧
    (8 : ℚ) ≠ 1 + (max 0 0 + 5) := by
  refine ⟨rfl, by decide, by norm_num⟩

/-- C3 (amended): a publish whose body is empty after trimming is rejected
with a 400 and leaves the state unchanged; every publish with a nonempty
trimmed body, regardless of prior state (including a still-unexpired
value), replaces the stored text and sets expiry = now + max(0, duration)
+ 5, with a malformed or missing duration prefix defaulting to 0 (via
transcriptDuration); a read performed once now is at or past expiry
returns the empty string, a read performed while now < expiry on a
reachable state returns the stored text, and a read never errors (it
always returns either the stored text or the empty string). -/
theorem C3_transcript_ttl :
    (∀ raw (now : ℚ) s, pyStrip raw = "" →
        receive_transcript raw now s = (ApiResult.error 400 ("empty body"), s)) ∧
    (∀ raw (now : ℚ) s, pyStrip raw ≠ "" →
        receive_transcript raw now s =
          (ApiResult.ok,
            ⟨transcriptText raw, now + (max 0 (transcriptDuration raw) + 5)⟩)) ∧
    (∀ (now : ℚ) s, s.expire ≤ now → latest_transcript now s = "") ∧
    (∀ (now : ℚ) s, ReachableTranscript s → 0 ≤ now → now < s.expire →
        latest_transcript now s = s.text) ∧
    (∀ (now : ℚ) s, latest_transcript now s = "" ∨ latest_transcript now s = s.text) := by
  refine ⟨receive_transcript_error, receive_transcript_publish, ?_, ?_, ?_⟩
  · intro now s h
    unfold latest_transcript
    rw [if_pos (Or.inr h)]
  · intro now s hs hnow hlt
    have htext : s.text ≠ "" := by
      intro he
      have := reachableTranscript_empty_expire hs he
      rw [this] at hlt
      exact absurd hnow (not_le.2 hlt)
    unfold latest_transcript
    rw [if_neg]
    rintro (h1 | h2)
    · exact htext h1
    · exact absurd hlt (not_lt.2 h2)
  · intro now s
    unfold latest_transcript
    split
    · exact Or.inl rfl
    · exact Or.inr rfl

/-- Witness for C3: publishing the body 3 hello at time 0 stores hello
with expiry 8; a read at time 7 returns hello and a read at time 9
returns the empty string. -/
theorem C3_transcript_ttl_witness :
    pyStrip ("3 hello") ≠ "" ∧
    receive_transcript ("3 hello") 0 initialTranscript =
      (ApiResult.ok, ⟨"hello", 0 + (max 0 3 + 5)⟩) ∧
    ReachableTranscript ⟨"hello", 0 + (max 0 3 + 5)⟩ ∧
    (0 : ℚ) ≤ 7 ∧ (7 : ℚ) < 0 + (max 0 3 + 5) ∧
    latest_transcript 7 ⟨"hello", 0 + (max 0 3 + 5)⟩ = "hello" ∧
    (0 + (max 0 (3 : ℚ) + 5)) ≤ 9 ∧
    latest_transcript 9 ⟨"hello", 0 + (max 0 3 + 5)⟩ = "" := by
  have hmax : max (0 : ℚ) 3 = 3 := max_eq_right (by norm_num)
  have hne : pyStrip ("3 hello") ≠ "" := by decide
  have hpub := C3_transcript_ttl.2.1 ("3 hello") 0 initialTranscript hne
  have ht : transcriptText ("3 hello") = "hello" := rfl
  have hd : transcriptDuration ("3 hello") = 3 := rfl
  rw [ht, hd] at hpub
  have hreach : ReachableTranscript ⟨"hello", 0 + (max 0 3 + 5)⟩ := by
    have := ReachableTranscript.publish ("3 hello") 0 (le_refl 0)
      ReachableTranscript.init
    rwa [congrArg Prod.snd hpub] at this
  have h7 : (7 : ℚ) < 0 + (max 0 3 + 5) := by rw [hmax]; norm_num
  have h9 : (0 + (max 0 (3 : ℚ) + 5)) ≤ 9 := by rw [hmax]; norm_num
  refine ⟨hne, hpub, hreach, by norm_num, h7, ?_, h9, ?_⟩
  · exact C3_transcript_ttl.2.2.2.1 7 ⟨"hello", 0 + (max 0 3 + 5)⟩ hreach
      (by norm_num) h7
  · exact C3_transcript_ttl.2.2.1 9 ⟨"hello", 0 + (max 0 3 + 5)⟩ h9

/-- C2 counterexample: the polled sequence NOT_MOVING, Not Moving has two
maximal runs of identical consecutive polled values, but both values map
to the same Arduino command X, so the loop performs only one actuation,
not one per run of identical polled values. -/
theorem C2_counterexample :
    (command_poll_run none
        [(("NOT_MOVING"), none), (("Not Moving"), none)]).2.1.length = 1 ∧
    countRuns ["NOT_MOVING", "Not Moving"] = 2 ∧ (1 : Nat) ≠ 2 := by
  refine ⟨by decide, by decide, by decide⟩

/-- C2 (amended): over any finite sequence of polls whose tokens are
recognized movement tokens, the forwarding loop writes to the Arduino
exactly the debounced sequence of mapped commands; a mapped command equal
to the last forwarded one is never re-sent, and starting from no
last-forwarded value the loop performs exactly one actuation per maximal
run of identical consecutive mapped commands, regardless of how many
polls occur within the run. -/
theorem C2_debounce :
    (∀ (polls : List (String × Option (List Nat))) (last : Option String),
        (∀ p ∈ polls, (dirs (extractToken p.1)).isSome = true) →
        (command_poll_run last polls).2.1 =
          dedupRuns last (polls.map (fun p => mappedOf p.1))) ∧
    (∀ ms : List String, (dedupRuns none ms).length = countRuns ms) ∧
    (∀ polls : List (String × Option (List Nat)),
        (∀ p ∈ polls, (dirs (extractToken p.1)).isSome = true) →
        (command_poll_run none polls).2.1.length =
          countRuns (polls.map (fun p => mappedOf p.1))) := by
  refine ⟨fun polls last h => run_recognized_writes polls last h,
    dedupRuns_none_length, ?_⟩
  intro polls h
  rw [run_recognized_writes polls none h, dedupRuns_none_length]

/-- Witness for C2: three polls forming two runs of mapped commands
produce exactly two actuations. -/
theorem C2_debounce_witness :
    (∀ p ∈ ([(("FORWARD"), none), (("FORWARD"), none), (("BACKWARD"), none)] :
        List (String × Option (List Nat))),
      (dirs (extractToken p.1)).isSome = true) ∧
    (command_poll_run none
        [(("FORWARD"), none), (("FORWARD"), none), (("BACKWARD"), none)]).2.1.length =
      countRuns (([(("FORWARD"), none), (("FORWARD"), none), (("BACKWARD"), none)] :
        List (String × Option (List Nat))).map (fun p => mappedOf p.1)) :=
  ⟨by decide,
    C2_debounce.2.2 [(("FORWARD"), none), (("FORWARD"), none), (("BACKWARD"), none)]
      (by decide)⟩

/-- C10: a PHOTO token polled by the forwarding loop is never written to
the Arduino and leaves the last-forwarded value unchanged, so a run of
identical movement tokens interrupted by PHOTO polls still produces
exactly one actuation; and when no frame has been captured, the PHOTO
handler performs no file write. -/
theorem C10_photo_effects :
    (∀ raw (frame : Option (List Nat)) (last : Option String),
        extractToken raw = "PHOTO" →
        (command_poll_step frame last raw).1 = last ∧
        (command_poll_step frame last raw).2.1 = []) ∧
    (∀ raw (last : Option String), extractToken raw = "PHOTO" →
        (command_poll_step none last raw).2.2 = []) ∧
    (∀ (v m : String) (f : Option (List Nat)) (n₁ n₂ k : Nat),
        dirs (extractToken v) = some m →
        (command_poll_run none
            (List.replicate (n₁ + 1) (v, none) ++ List.replicate k (("PHOTO"), f) ++
              List.replicate n₂ (v, none))).2.1 = [m]) := by
  refine ⟨?_, ?_, ?_⟩
  · intro raw frame last h
    rw [poll_step_photo frame last raw h]
    exact ⟨rfl, rfl⟩
  · intro raw last h
    rw [poll_step_photo none last raw h]
  · intro v m f n₁ n₂ k hm
    have h1 : command_poll_run none (List.replicate (n₁ + 1) (v, none)) =
        (some m, [m], []) := by
      simp only [List.replicate, command_poll_run]
      rw [poll_step_recognized none none v m hm, if_neg (by simp)]
      simp [run_replicate_same v m hm n₁]
    have h2 := run_photo_replicate f (some m) k
    have h3 := run_replicate_same v m hm n₂
    rw [List.append_assoc, run_writes_append, h1, run_writes_append, h2.2, h2.1, h3]
    simp

/-- Witness for C10: two FORWARD polls, two PHOTO polls with a frame
available, then three more FORWARD polls yield exactly one actuation; a
PHOTO poll leaves the last-forwarded value unchanged, writes nothing to
serial and, with no frame captured, performs no file write. -/
theorem C10_photo_effects_witness :
    extractToken ("PHOTO") = "PHOTO" ∧
    dirs (extractToken ("FORWARD")) = some ("W") ∧
    (command_poll_step (some [9]) (some ("W")) ("PHOTO")).1 = some ("W") ∧
    (command_poll_step (some [9]) (some ("W")) ("PHOTO")).2.1 = [] ∧
    (command_poll_step none (some ("W")) ("PHOTO")).2.2 = [] ∧
    (command_poll_run none
        (List.replicate 2 (("FORWARD"), none) ++ List.replicate 2 (("PHOTO"), some [9]) ++
          List.replicate 3 (("FORWARD"), none))).2.1 = ["W"] := by
  have h := C10_photo_effects
  exact ⟨by decide, by decide,
    (h.1 ("PHOTO") (some [9]) (some ("W")) (by decide)).1,
    (h.1 ("PHOTO") (some [9]) (some ("W")) (by decide)).2,
    h.2.1 ("PHOTO") (some ("W")) (by decide),
    h.2.2 ("FORWARD") ("W") (some [9]) 1 3 2 (by decide)⟩

/-- C4 counterexample: the anchor is recorded before the playback start
attempt, not at the moment playback is successfully started.  With the
anchor taken at 0, playback taking 1 time unit, and a single lyric line
at offset 5/2, the flow publishes at instant 5/2; under the claim the
anchor would be the success instant 1, and the publish would never happen
before 1 + 5/2 - 1/20, yet 5/2 is earlier than that, and the recorded
anchor instant 0 differs from the success instant 1. -/
theorem C4_counterexample :
    handle_music_spotify_sched 0 1 true [(5/2, ("a"))] =
      [FlowEvent.anchorRecorded 0, FlowEvent.playbackStarted 1,
        FlowEvent.publish (5/2) ("10 a")] ∧
    (5/2 : ℚ) < 1 + 5/2 - 1/20 ∧
    (0 : ℚ) ≠ 1 := by
  have h1 : (0 : ℚ) + 1 = 1 := by norm_num
  have h2 : max ((0 : ℚ) + 1) (0 + 5/2) = 5/2 := by
    rw [show (0 : ℚ) + 5/2 = 5/2 by norm_num, h1]
    exact max_eq_right (by norm_num)
  refine ⟨?_, by norm_num, by norm_num⟩
  simp [handle_music_spotify_sched, lyricPublishes, h1, h2]
  norm_num

/-- C4 (amended): the anchor instant is recorded immediately before the
playback start attempt; a playback-start failure aborts the entire
schedule before any lyric line is published and is reported with the
distinct spotify_playback_failed reason; on success each (offset, text)
line is published to the transcript endpoint exactly once, in sequence
order (even for out-of-order or duplicate offsets), and never earlier
than anchor + offset. -/
theorem C4_lyric_scheduler :
    (∀ (t0 d : ℚ) (lines : List (ℚ × String)),
        handle_music_spotify_sched t0 d false lines =
          [FlowEvent.anchorRecorded t0, FlowEvent.playbackFailed (t0 + d),
            FlowEvent.errorReport (t0 + d) ("5 Error starting Spotify playback")] ∧
        publishEvents (handle_music_spotify_sched t0 d false lines) = []) ∧
    (∀ (t0 d : ℚ) (lines : List (ℚ × String)), 0 ≤ d →
        (handle_music_spotify_sched t0 d true lines).head? =
          some (FlowEvent.anchorRecorded t0) ∧
        t0 ≤ t0 + d ∧
        List.Forall₂ (fun (l : ℚ × String) (e : FlowEvent) =>
            ∃ t, e = FlowEvent.publish t ("10 " ++ l.2) ∧ t0 + l.1 ≤ t)
          lines (publishEvents (handle_music_spotify_sched t0 d true lines))) := by
  constructor
  · intro t0 d lines
    exact ⟨rfl, rfl⟩
  · intro t0 d lines hd
    refine ⟨rfl, by linarith, ?_⟩
    have hfilter : publishEvents (handle_music_spotify_sched t0 d true lines) =
        lyricPublishes t0 (t0 + d) lines := by
      have hpl := publishEvents_lyricPublishes t0 lines (t0 + d)
      unfold publishEvents at hpl
      unfold handle_music_spotify_sched publishEvents
      rw [if_pos rfl, List.filter_cons_of_neg (by exact Bool.false_ne_true),
        List.filter_cons_of_neg (by exact Bool.false_ne_true), hpl]
    rw [hfilter]
    exact lyricPublishes_forall₂ t0 lines (t0 + d)

/-- Witness for C4: a successful playback taking one time unit and a
single line at offset zero. -/
theorem C4_lyric_scheduler_witness :
    (0 : ℚ) ≤ 1 ∧
    ((handle_music_spotify_sched 0 1 true [(0, ("x"))]).head? =
        some (FlowEvent.anchorRecorded 0) ∧
      (0 : ℚ) ≤ 0 + 1 ∧
      List.Forall₂ (fun (l : ℚ × String) (e : FlowEvent) =>
          ∃ t, e = FlowEvent.publish t ("10 " ++ l.2) ∧ 0 + l.1 ≤ t)
        [(0, ("x"))]
        (publishEvents (handle_music_spotify_sched 0 1 true [(0, ("x"))]))) :=
  ⟨by norm_num, C4_lyric_scheduler.2 0 1 [(0, ("x"))] (by norm_num)⟩

/-- C8: parse_lrc_timestamps returns the empty list for empty input; for
every input it processes the newline-separated lines in order,
contributing exactly one (minutes * 60 + seconds, stripped text) pair per
line of the timestamp-markup form and silently dropping every line that
fails the pattern: a line produces a pair exactly when it decomposes as
an opening bracket, digits, colon, digits, dot, digits, closing bracket
and trailing text (LrcForm), and the pair is its lrcValue. -/
theorem C8_parse_lrc :
    parse_lrc_timestamps ("") = [] ∧
    (∀ s : String,
        parse_lrc_timestamps s = (s.data.splitOn ('\n')).filterMap parseLine) ∧
    (∀ ls : List (List Char), ls ≠ [] → (∀ l ∈ ls, ('\n') ∉ l) →
        parse_lrc_timestamps (String.mk (List.intercalate ['\n'] ls)) =
          ls.filterMap parseLine) ∧
    (∀ l m a b t, LrcForm l m a b t → parseLine l = some (lrcValue m a b t)) ∧
    (∀ l v, parseLine l = some v →
        ∃ m a b t, LrcForm l m a b t ∧ v = lrcValue m a b t) := by
  refine ⟨rfl, parse_lrc_eq_filterMap, ?_, parseLine_of_form, parseLine_some_form⟩
  intro ls hne hnl
  rw [parse_lrc_eq_filterMap]
  have hdata : (String.mk (List.intercalate ['\n'] ls)).data =
      List.intercalate ['\n'] ls := rfl
  rw [hdata, List.splitOn_intercalate _ _ hnl hne]

/-- Witness for C8: a two-line input with one matching and one
non-matching line, and a concrete matching line decomposition. -/
theorem C8_parse_lrc_witness :
    ((["[01:23.45] Hello".data, "bad".data] : List (List Char)) ≠ []) ∧
    (∀ l ∈ (["[01:23.45] Hello".data, "bad".data] : List (List Char)), ('\n') ∉ l) ∧
    parse_lrc_timestamps
        (String.mk (List.intercalate ['\n'] ["[01:23.45] Hello".data, "bad".data])) =
      (["[01:23.45] Hello".data, "bad".data] : List (List Char)).filterMap parseLine ∧
    LrcForm ("[1:2.5]hi".data) (['1']) (['2']) (['5']) ("hi".data) ∧
    parseLine ("[1:2.5]hi".data) =
      some (lrcValue (['1']) (['2']) (['5']) ("hi".data)) := by
  have hform : LrcForm ("[1:2.5]hi".data) (['1']) (['2']) (['5']) ("hi".data) := by
    unfold LrcForm
    decide
  exact ⟨by decide, by decide,
    C8_parse_lrc.2.2.1 ["[01:23.45] Hello".data, "bad".data] (by decide) (by decide),
    hform, C8_parse_lrc.2.2.2.1 _ _ _ _ _ hform⟩

/-- C9: the non-music branch of process_audio_file builds its
error-reporting message from the variable song_name, which is assigned
only in the music flow and is unbound on this path, so executing the
branch raises a NameError at the reporting call. -/
theorem C9_unbound_song_name (transcribedText audioPath : String)
    (h : mentionsMusic (pyLower transcribedText) = false) :
    process_audio_file_branch transcribedText audioPath =
      Except.error (PyErr.nameError ("song_name")) := by
  unfold process_audio_file_branch
  rw [if_neg (by simp [h])]
  rfl

/-- Witness for C9: a transcript with no music keyword. -/
theorem C9_unbound_song_name_witness :
    mentionsMusic (pyLower ("hello there")) = false ∧
    process_audio_file_branch ("hello there") ("a.mp3") =
      Except.error (PyErr.nameError ("song_name")) :=
  ⟨by decide, C9_unbound_song_name ("hello there") ("a.mp3") (by decide)⟩

end Eous
